import Mathlib

/-!
Verification development for the request-admission core of the blessing
service: the token subsystem (`generateToken` in the WeChat login route and
the shared `verifyToken` in `src/lib/auth.ts`) and the admission gateway
(`middleware` and the `/api/blessing` route's admission prefix).

The TypeScript source is embedded shallowly:

* JavaScript strings are Lean `String`s; the character-level operations
  (`split('.')`, `includes`, `replace`, base64, UTF-8) are modelled on
  `List Char` / `List Nat` (byte lists) and proved about directly.
* `crypto.createHmac('sha256', key).update(msg).digest()` is an external
  Node primitive; it is modelled as an abstract parameter
  `hmac : String → String → List Nat` (key, message ↦ digest bytes).
  The only fact about the real primitive any theorem uses is that a
  SHA-256 digest is exactly 32 bytes long, taken as a hypothesis.
* `Buffer.toString('base64')` / `Buffer.from(str, 'base64')` are the
  standard base64 codec; Node's decoder is lenient (it skips characters
  outside the alphabet and drops a trailing partial group), which is
  modelled exactly.
* `JSON.stringify` / `JSON.parse` are modelled by a small executable JSON
  codec over an inductive `Json` type.  Numbers are restricted to
  integers: every number the service writes or compares is an integer
  millisecond timestamp, and no theorem below depends on non-integer
  payloads.  JavaScript's implicit string-to-number coercion in `<` is
  likewise not modelled (comparisons against non-number fields yield
  `false`, exactly as they do for `undefined`/`NaN` in JavaScript).
* Exceptions are modelled with `Except`: the body of `verifyToken` runs in
  `Except String`, and the surrounding `try/catch` maps every error to
  `null` (`none`).
-/

/-! ### Dot splitting: `token.split('.')` -/

/-- Prepends a character onto the first piece of a split result (helper for
`splitDot`). -/
def consHead (c : Char) : List (List Char) → List (List Char)
  | [] => [[c]]
  | h :: t => (c :: h) :: t

/-- JavaScript `s.split('.')` on the character list: the list of maximal
dot-free pieces, one more piece than there are dots. -/
def splitDot : List Char → List (List Char)
  | [] => [[]]
  | c :: rest => if c = '.' then [] :: splitDot rest else consHead c (splitDot rest)

/-! ### Base64 (`Buffer.toString('base64')` / `Buffer.from(_, 'base64')`) -/

/-- The standard base64 alphabet, index 0–63. -/
def b64Alpha : List Char :=
  [ 'A', 'B', 'C', 'D', 'E', 'F', 'G', 'H', 'I', 'J', 'K', 'L', 'M',
    'N', 'O', 'P', 'Q', 'R', 'S', 'T', 'U', 'V', 'W', 'X', 'Y', 'Z',
    'a', 'b', 'c', 'd', 'e', 'f', 'g', 'h', 'i', 'j', 'k', 'l', 'm',
    'n', 'o', 'p', 'q', 'r', 's', 't', 'u', 'v', 'w', 'x', 'y', 'z',
    '0', '1', '2', '3', '4', '5', '6', '7', '8', '9', '+', '/' ]

/-- Character for a 6-bit value. -/
def b64Char (i : Nat) : Char := b64Alpha.getD i 'A'

/-- Standard padded base64 of a byte list, as `Buffer.toString('base64')`
produces it: 3 bytes become 4 alphabet characters, a 2-byte tail becomes 3
characters and one `'='`, a 1-byte tail becomes 2 characters and two `'='`. -/
def b64encode : List Nat → List Char
  | [] => []
  | [a] => [b64Char (a / 4), b64Char (a % 4 * 16), '=', '=']
  | [a, b] => [b64Char (a / 4), b64Char (a % 4 * 16 + b / 16), b64Char (b % 16 * 4), '=']
  | a :: b :: c :: rest =>
      b64Char (a / 4) :: b64Char (a % 4 * 16 + b / 16) ::
      b64Char (b % 16 * 4 + c / 64) :: b64Char (c % 64) :: b64encode rest

/-- The 6-bit value of an alphabet character; `none` for everything else
(including `'='`). -/
def b64Val (c : Char) : Option Nat :=
  b64Alpha.findIdx? (fun a => a = c)

/-- Reassembles bytes from a list of 6-bit values: groups of four make three
bytes, a 3-value tail makes two, a 2-value tail one, and a single leftover
value is dropped (Node's lenient decoder). -/
def b64Bytes : List Nat → List Nat
  | a :: b :: c :: d :: rest =>
      (a * 4 + b / 16) :: (b % 16 * 16 + c / 4) :: (c % 4 * 64 + d) :: b64Bytes rest
  | [a, b, c] => [a * 4 + b / 16, b % 16 * 16 + c / 4]
  | [a, b] => [a * 4 + b / 16]
  | _ => []

/-- `Buffer.from(s, 'base64')`: Node skips every character outside the
alphabet (in particular `'='` padding) and decodes the rest. -/
def b64decode (l : List Char) : List Nat :=
  b64Bytes (l.filterMap b64Val)

/-! ### UTF-8 (`Buffer.from(string)` / `buffer.toString()`) -/

/-- UTF-8 bytes of one scalar value. -/
def utf8EncodeChar (c : Char) : List Nat :=
  let n := c.toNat
  if n < 128 then [n]
  else if n < 2048 then [192 + n / 64, 128 + n % 64]
  else if n < 65536 then [224 + n / 4096, 128 + n / 64 % 64, 128 + n % 64]
  else [240 + n / 262144, 128 + n / 4096 % 64, 128 + n / 64 % 64, 128 + n % 64]

/-- UTF-8 bytes of a string, as `Buffer.from(s)` yields. -/
def utf8Encode (s : String) : List Nat :=
  (s.toList.map utf8EncodeChar).flatten

/-- True for a UTF-8 continuation byte `10xxxxxx`. -/
def isCont (b : Nat) : Bool := 128 ≤ b && b < 192

/-- Fuel-driven UTF-8 decoder.  Valid sequences decode to their scalar
value; an invalid byte yields U+FFFD and decoding resumes at the next byte
(an adequate model of Node's replacement behaviour; every input a theorem
evaluates is valid ASCII). -/
def utf8DecodeAux : Nat → List Nat → List Char
  | 0, _ => []
  | _ + 1, [] => []
  | fuel + 1, b :: rest =>
    if b < 128 then Char.ofNat b :: utf8DecodeAux fuel rest
    else if b < 194 then '�' :: utf8DecodeAux fuel rest
    else if b < 224 then
      match rest with
      | b2 :: rest2 =>
          if isCont b2 then Char.ofNat ((b - 192) * 64 + (b2 - 128)) :: utf8DecodeAux fuel rest2
          else '�' :: utf8DecodeAux fuel rest
      | [] => ['�']
    else if b < 240 then
      match rest with
      | b2 :: b3 :: rest3 =>
          if isCont b2 && isCont b3 &&
             (b ≠ 224 || 160 ≤ b2) && (b ≠ 237 || b2 < 160) then
            Char.ofNat ((b - 224) * 4096 + (b2 - 128) * 64 + (b3 - 128)) ::
              utf8DecodeAux fuel rest3
          else '�' :: utf8DecodeAux fuel rest
      | _ => ['�']
    else if b < 245 then
      match rest with
      | b2 :: b3 :: b4 :: rest4 =>
          if isCont b2 && isCont b3 && isCont b4 &&
             (b ≠ 240 || 144 ≤ b2) && (b ≠ 244 || b2 < 144) then
            Char.ofNat ((b - 240) * 262144 + (b2 - 128) * 4096 + (b3 - 128) * 64 + (b4 - 128)) ::
              utf8DecodeAux fuel rest4
          else '�' :: utf8DecodeAux fuel rest
      | _ => ['�']
    else '�' :: utf8DecodeAux fuel rest

/-- `buffer.toString()`: UTF-8 decode with replacement characters. -/
def utf8Decode (bytes : List Nat) : String :=
  String.mk (utf8DecodeAux bytes.length bytes)

/-! ### JSON values (`JSON.stringify` / `JSON.parse`) -/

/-- A JSON value.  Numbers are integers (the service only ever writes and
compares integer millisecond timestamps). -/
inductive Json where
  | null
  | bool (b : Bool)
  | num (n : Int)
  | str (s : String)
  | arr (elems : List Json)
  | obj (members : List (String × Json))
deriving Repr

/-- Lower-case hexadecimal digit. -/
def hexDigitChar (n : Nat) : Char :=
  if n < 10 then Char.ofNat (48 + n) else Char.ofNat (87 + n)

/-- `JSON.stringify` escaping for one character: quote, backslash and the
short control escapes, `\u00xx` for the remaining control characters, and
everything else verbatim. -/
def jsonEscapeChar (c : Char) : List Char :=
  if c = '"' then ['\\', '"']
  else if c = '\\' then ['\\', '\\']
  else if c.toNat = 8 then ['\\', 'b']
  else if c.toNat = 9 then ['\\', 't']
  else if c.toNat = 10 then ['\\', 'n']
  else if c.toNat = 12 then ['\\', 'f']
  else if c.toNat = 13 then ['\\', 'r']
  else if c.toNat < 32 then
    ['\\', 'u', '0', '0', hexDigitChar (c.toNat / 16), hexDigitChar (c.toNat % 16)]
  else [c]

/-- `JSON.stringify` escaping of a whole string body. -/
def jsonEscape (s : String) : List Char :=
  (s.toList.map jsonEscapeChar).flatten

mutual

/-- `JSON.stringify`, to characters. -/
def jsonRender : Json → List Char
  | .null => "null".toList
  | .bool true => "true".toList
  | .bool false => "false".toList
  | .num n => (toString n).toList
  | .str s => '"' :: jsonEscape s ++ ['"']
  | .arr xs => '[' :: jsonRenderItems xs ++ [']']
  | .obj ms => Char.ofNat 123 :: jsonRenderMembers ms ++ [Char.ofNat 125]

/-- Comma-joined rendering of array elements. -/
def jsonRenderItems : List Json → List Char
  | [] => []
  | [x] => jsonRender x
  | x :: xs => jsonRender x ++ ',' :: jsonRenderItems xs

/-- Comma-joined rendering of object members, keys in insertion order. -/
def jsonRenderMembers : List (String × Json) → List Char
  | [] => []
  | [(k, v)] => '"' :: jsonEscape k ++ '"' :: ':' :: jsonRender v
  | (k, v) :: ms =>
      ('"' :: jsonEscape k ++ '"' :: ':' :: jsonRender v) ++ ',' :: jsonRenderMembers ms

end

/-- `JSON.stringify` as a string-to-string operation. -/
def jsonStringify (j : Json) : String := String.mk (jsonRender j)

/-- JSON whitespace. -/
def jsonWsChar (c : Char) : Bool := c = ' ' || c = '\t' || c = '\n' || c = '\r'

/-- Skips JSON whitespace. -/
def skipJsonWs : List Char → List Char
  | [] => []
  | c :: r => if jsonWsChar c then skipJsonWs r else c :: r

/-- ASCII decimal digit test. -/
def isDigitChar (c : Char) : Bool := 48 ≤ c.toNat && c.toNat ≤ 57

/-- Splits a leading run of decimal digits off a character list. -/
def takeDigitList : List Char → List Char × List Char
  | [] => ([], [])
  | c :: r =>
    if isDigitChar c then
      let (ds, rest) := takeDigitList r
      (c :: ds, rest)
    else ([], c :: r)

/-- Numeric value of a digit run. -/
def digitsToNat (ds : List Char) : Nat :=
  ds.foldl (fun acc c => acc * 10 + (c.toNat - 48)) 0

/-- Hexadecimal value of one character, if any. -/
def hexVal (c : Char) : Option Nat :=
  let n := c.toNat
  if 48 ≤ n && n ≤ 57 then some (n - 48)
  else if 97 ≤ n && n ≤ 102 then some (n - 87)
  else if 65 ≤ n && n ≤ 70 then some (n - 55)
  else none

/-- Reads exactly four hexadecimal digits. -/
def hex4 : List Char → Option (Nat × List Char)
  | a :: b :: c :: d :: rest =>
    match hexVal a, hexVal b, hexVal c, hexVal d with
    | some x, some y, some z, some w => some (x * 4096 + y * 256 + z * 16 + w, rest)
    | _, _, _, _ => none
  | _ => none

mutual

/-- One JSON value starting at the head of the input (whitespace allowed),
returning the value and the unconsumed rest.  Mirrors `JSON.parse` on the
grammar fragment the service exercises; numbers are bare integers (a
fraction or exponent is rejected — see the header comment). -/
def parseJsonValue : Nat → List Char → Except String (Json × List Char)
  | 0, _ => .error "fuel exhausted"
  | fuel + 1, l =>
    match skipJsonWs l with
    | [] => .error "unexpected end of input"
    | c :: rest =>
      if c = 'n' then
        if "ull".toList.isPrefixOf rest then .ok (.null, rest.drop 3)
        else .error "bad literal"
      else if c = 't' then
        if "rue".toList.isPrefixOf rest then .ok (.bool true, rest.drop 3)
        else .error "bad literal"
      else if c = 'f' then
        if "alse".toList.isPrefixOf rest then .ok (.bool false, rest.drop 4)
        else .error "bad literal"
      else if c = '"' then
        (parseJsonStrBody fuel rest).map (fun p => (.str (String.mk p.1), p.2))
      else if c = '-' || isDigitChar c then
        let body := if c = '-' then rest else c :: rest
        let (ds, r) := takeDigitList body
        if ds.isEmpty then .error "bad number"
        else if ds.length > 1 && ds.headD '0' = '0' then .error "leading zero"
        else
          match r with
          | '.' :: _ => .error "non-integer number"
          | 'e' :: _ => .error "non-integer number"
          | 'E' :: _ => .error "non-integer number"
          | _ =>
            let v : Int := digitsToNat ds
            .ok (.num (if c = '-' then -v else v), r)
      else if c = '[' then
        match skipJsonWs rest with
        | ']' :: r2 => .ok (.arr [], r2)
        | _ => (parseJsonItems fuel rest).map (fun p => (.arr p.1, p.2))
      else if c = Char.ofNat 123 then
        match skipJsonWs rest with
        | c2 :: r2 =>
          if c2 = Char.ofNat 125 then .ok (.obj [], r2)
          else (parseJsonMembers fuel rest).map (fun p => (.obj p.1, p.2))
        | [] => .error "unterminated object"
      else .error "unexpected character"

/-- One or more comma-separated array items followed by `']'`. -/
def parseJsonItems : Nat → List Char → Except String (List Json × List Char)
  | 0, _ => .error "fuel exhausted"
  | fuel + 1, l => do
    let (v, r) ← parseJsonValue fuel l
    match skipJsonWs r with
    | ',' :: r2 => (parseJsonItems fuel r2).map (fun p => (v :: p.1, p.2))
    | ']' :: r2 => .ok ([v], r2)
    | _ => .error "expected comma or bracket"

/-- One or more `"key": value` members followed by the closing brace. -/
def parseJsonMembers : Nat → List Char → Except String (List (String × Json) × List Char)
  | 0, _ => .error "fuel exhausted"
  | fuel + 1, l =>
    match skipJsonWs l with
    | '"' :: r => do
      let (ks, r1) ← parseJsonStrBody fuel r
      match skipJsonWs r1 with
      | ':' :: r2 => do
        let (v, r3) ← parseJsonValue fuel r2
        match skipJsonWs r3 with
        | ',' :: r4 => (parseJsonMembers fuel r4).map (fun p => ((String.mk ks, v) :: p.1, p.2))
        | c5 :: r5 =>
          if c5 = Char.ofNat 125 then .ok ([(String.mk ks, v)], r5)
          else .error "expected comma or brace"
        | [] => .error "unterminated object"
      | _ => .error "expected colon"
    | _ => .error "expected string key"

/-- The body of a JSON string after its opening quote, up to and past the
closing quote.  Escapes follow `JSON.parse`; a lone surrogate in a `\u`
escape becomes U+FFFD (Lean characters are scalar values). -/
def parseJsonStrBody : Nat → List Char → Except String (List Char × List Char)
  | 0, _ => .error "fuel exhausted"
  | fuel + 1, l =>
    match l with
    | [] => .error "unterminated string"
    | c :: rest =>
      if c = '"' then .ok ([], rest)
      else if c = '\\' then
        match rest with
        | [] => .error "unterminated escape"
        | e :: r2 =>
          if e = '"' then (parseJsonStrBody fuel r2).map (fun p => ('"' :: p.1, p.2))
          else if e = '\\' then (parseJsonStrBody fuel r2).map (fun p => ('\\' :: p.1, p.2))
          else if e = '/' then (parseJsonStrBody fuel r2).map (fun p => ('/' :: p.1, p.2))
          else if e = 'b' then (parseJsonStrBody fuel r2).map (fun p => (Char.ofNat 8 :: p.1, p.2))
          else if e = 'f' then (parseJsonStrBody fuel r2).map (fun p => (Char.ofNat 12 :: p.1, p.2))
          else if e = 'n' then (parseJsonStrBody fuel r2).map (fun p => ('\n' :: p.1, p.2))
          else if e = 'r' then (parseJsonStrBody fuel r2).map (fun p => ('\r' :: p.1, p.2))
          else if e = 't' then (parseJsonStrBody fuel r2).map (fun p => ('\t' :: p.1, p.2))
          else if e = 'u' then
            match hex4 r2 with
            | none => .error "bad unicode escape"
            | some (n, r3) =>
              if 55296 ≤ n && n < 56320 then
                match r3 with
                | '\\' :: 'u' :: r4 =>
                  match hex4 r4 with
                  | some (n2, r5) =>
                    if 56320 ≤ n2 && n2 < 57344 then
                      (parseJsonStrBody fuel r5).map
                        (fun p => (Char.ofNat ((n - 55296) * 1024 + (n2 - 56320) + 65536) :: p.1, p.2))
                    else (parseJsonStrBody fuel r3).map (fun p => ('�' :: p.1, p.2))
                  | none => (parseJsonStrBody fuel r3).map (fun p => ('�' :: p.1, p.2))
                | _ => (parseJsonStrBody fuel r3).map (fun p => ('�' :: p.1, p.2))
              else if 56320 ≤ n && n < 57344 then
                (parseJsonStrBody fuel r3).map (fun p => ('�' :: p.1, p.2))
              else (parseJsonStrBody fuel r3).map (fun p => (Char.ofNat n :: p.1, p.2))
          else .error "bad escape"
      else if c.toNat < 32 then .error "control character in string"
      else (parseJsonStrBody fuel rest).map (fun p => (c :: p.1, p.2))

end

/-- `JSON.parse`: one value, then only whitespace to the end. -/
def jsonParse (s : String) : Except String Json := do
  let l := s.toList
  let (v, rest) ← parseJsonValue (l.length + 8) l
  if (skipJsonWs rest).isEmpty then .ok v else .error "trailing input"

/-! ### The token service

`generateToken` is the minting function of the WeChat login route
(`src/app/api/auth/wechat/login/route.ts`); `verifyToken` is the shared
verifier of `src/lib/auth.ts` used by the API routes.  Both receive the
HMAC-SHA256 primitive and the signing secret explicitly (in the source the
secret is the module-level `JWT_SECRET`, modelled by `jwtSecretOf` below).
-/

/-- The digest of one HMAC invocation: key and message in, bytes out.
Stands for Node's `crypto.createHmac('sha256', key).update(msg).digest()`;
theorems only ever use that the digest is 32 bytes long. -/
abbrev HmacFun := String → String → List Nat

/-- Property access `o.f` on a parsed JSON value: a field of an object
(last duplicate wins, as in a JavaScript object literal), `undefined`
(`none`) on a non-object.  Access on `null` throws in JavaScript and is
handled separately in `verifyTokenBody`. -/
def jsGetField (j : Json) (k : String) : Option Json :=
  match j with
  | .obj ms => (ms.reverse.find? (fun kv => kv.fst = k)).map (fun kv => kv.snd)
  | _ => none

/-- The JavaScript comparison `v < now` for a possibly-undefined payload
field: a number compares numerically; `undefined` and every non-number
value compare `false` (as `undefined`/`NaN` do in JavaScript). -/
def jsLtNum (v : Option Json) (now : Int) : Bool :=
  match v with
  | some (.num e) => e < now
  | _ => false

/-- The object the verifier returns: `{ userId: decoded.sub, openid:
decoded.openid }`, each field `undefined` (`none`) when absent. -/
structure TokenPayload where
  userId : Option Json
  openid : Option Json
deriving Repr

/-- `replace(/\+/g, '-')`. -/
def jsReplacePlus (l : List Char) : List Char :=
  l.map (fun c => if c = '+' then '-' else c)

/-- `replace(/\//g, '_')`. -/
def jsReplaceSlash (l : List Char) : List Char :=
  l.map (fun c => if c = '/' then '_' else c)

/-- `replace(/=/g, '')`. -/
def jsStripEq (l : List Char) : List Char :=
  l.filter (fun c => c ≠ '=')

/-- The verifier's expected signature: HMAC over `header + '.' + payload`,
base64, then made URL-safe and padding-free by the three `replace` calls of
`src/lib/auth.ts`. -/
def expectedSigOf (hmac : HmacFun) (secret : String) (header payload : List Char) : List Char :=
  jsStripEq (jsReplaceSlash (jsReplacePlus
    (b64encode (hmac secret (String.mk (header ++ '.' :: payload))))))

/-- The verifier's `fromBase64Url` helper: URL-safe characters back to
standard base64 and `'='` appended up to a multiple of four. -/
def fromBase64Url (l : List Char) : List Char :=
  let base64 := (l.map (fun c => if c = '-' then '+' else c)).map
    (fun c => if c = '_' then '/' else c)
  let padding := base64.length % 4
  base64 ++ List.replicate (if padding = 0 then 0 else 4 - padding) '='

/-- Payload-section decoding in `verifyToken`:
`JSON.parse(Buffer.from(fromBase64Url(payload), 'base64').toString())`. -/
def decodedPayloadOf (payload : List Char) : Except String Json :=
  jsonParse (utf8Decode (b64decode (fromBase64Url payload)))

/-- The `try` block of `verifyToken` (`src/lib/auth.ts`): split on dots,
require three sections, recompute the URL-safe-stripped signature, compare,
decode the payload, reject stale `exp`, and return the identity fields.
Errors are the exceptions the block can raise: a `JSON.parse` failure, or
the `TypeError` of reading `.exp` off a `null` payload. -/
def verifyTokenBody (hmac : HmacFun) (secret : String) (token : String) (now : Int) :
    Except String (Option TokenPayload) :=
  match splitDot token.toList with
  | [header, payload, signature] =>
    if signature = expectedSigOf hmac secret header payload then
      match decodedPayloadOf payload with
      | .error e => .error e
      | .ok .null => .error "TypeError: cannot read properties of null"
      | .ok j =>
        .ok (if jsLtNum (jsGetField j "exp") now then none
             else some ⟨jsGetField j "sub", jsGetField j "openid"⟩)
    else .ok none
  | _ => .ok none

/-- `verifyToken` as its callers see it: the `try` body with the `catch`
that turns every exception into `null`. -/
def verifyToken (hmac : HmacFun) (secret : String) (token : String) (now : Int) :
    Option TokenPayload :=
  match verifyTokenBody hmac secret token now with
  | .ok r => r
  | .error _ => none

/-- Header characters minted by `generateToken`:
`Buffer.from(JSON.stringify({ alg: 'HS256', typ: 'JWT' })).toString('base64')`. -/
def mintHeader : List Char :=
  b64encode (utf8Encode (jsonStringify (.obj [("alg", .str "HS256"), ("typ", .str "JWT")])))

/-- Payload characters minted by `generateToken` at time `now`: standard
base64 of the stringified `{ sub, openid, iat, exp }` object, `exp` seven
days after `now`. -/
def mintPayload (userId openid : String) (now : Int) : List Char :=
  b64encode (utf8Encode (jsonStringify (.obj
    [ ("sub", .str userId), ("openid", .str openid),
      ("iat", .num now), ("exp", .num (now + 7 * 24 * 60 * 60 * 1000)) ])))

/-- Signature characters minted by `generateToken`: plain
`digest('base64')` of the HMAC over `header + '.' + payload` — standard
base64, padding kept, no URL-safe replacement. -/
def mintSignature (hmac : HmacFun) (secret : String) (userId openid : String) (now : Int) :
    List Char :=
  b64encode (hmac secret
    (String.mk (mintHeader ++ '.' :: mintPayload userId openid now)))

/-- `generateToken` of the login route: `header.payload.signature`. -/
def generateToken (hmac : HmacFun) (secret : String) (userId openid : String) (now : Int) :
    String :=
  String.mk (mintHeader ++ '.' :: mintPayload userId openid now
    ++ '.' :: mintSignature hmac secret userId openid now)

/-- The module-level secret: `process.env.JWT_SECRET ||
'default-secret-change-in-production'`.  `||` takes the fallback when the
variable is unset or set to the empty string (both are falsy). -/
def jwtSecretOf (env : Option String) : String :=
  match env with
  | none => "default-secret-change-in-production"
  | some s => if s = "" then "default-secret-change-in-production" else s

/-- `generateToken` as the process actually runs it, secret drawn from the
environment. -/
def generateTokenEnv (hmac : HmacFun) (env : Option String)
    (userId openid : String) (now : Int) : String :=
  generateToken hmac (jwtSecretOf env) userId openid now

/-- `verifyToken` as the process actually runs it, secret drawn from the
environment. -/
def verifyTokenEnv (hmac : HmacFun) (env : Option String) (token : String) (now : Int) :
    Option TokenPayload :=
  verifyToken hmac (jwtSecretOf env) token now

/-- A concrete stand-in for the external HMAC-SHA256 primitive, used only
to instantiate witnesses: every digest is the 32 zero bytes. -/
def hmacStub : HmacFun := fun _ _ => List.replicate 32 0

/-! ### The admission gateway

`middleware` is the Next.js middleware (matcher `/api/:path*`): client-type
check, then rate limiting for `/api/blessing` paths.  The rate-limit
library (`@/lib/rate-limit`) is an external store round trip from the
middleware's point of view; its outcome — a result object, or a thrown
error — is passed in as an `Except` value.  `postAdmission` is the
admission prefix of the `/api/blessing` route handler: client-type check,
then token extraction and verification.
-/

/-- `haystack.includes(needle)` on character lists. -/
def listContainsSub : List Char → List Char → Bool
  | [], pat => pat.isEmpty
  | c :: t, pat => pat.isPrefixOf (c :: t) || listContainsSub t pat

/-- JavaScript `String.prototype.includes`. -/
def jsIncludes (s pat : String) : Bool :=
  listContainsSub s.toList pat.toList

/-- JavaScript `String.prototype.startsWith`. -/
def jsStartsWith (s pre : String) : Bool :=
  pre.toList.isPrefixOf s.toList

/-- `isWeChatMiniProgram` of the middleware: the User-Agent contains
`MicroMessenger`. -/
def isWeChatMiniProgram (userAgent : String) : Bool :=
  jsIncludes userAgent "MicroMessenger"

/-- The result object `checkRateLimit` resolves with, as the middleware
consumes it. -/
structure RateLimitResult where
  success : Bool
  error : Option String
  resetTime : Int
  limit : Int
  remaining : Int
deriving Repr, DecidableEq

/-- The slice of the request the middleware reads: the `user-agent` header
(absent headers are `null`) and the URL path. -/
structure MwRequest where
  userAgent : Option String
  pathname : String
deriving Repr, DecidableEq

/-- A middleware response: a JSON error response with a status, body and
headers, or `NextResponse.next()` (forward downstream) with headers. -/
inductive MwResponse where
  | json (status : Nat) (body : Json) (headers : List (String × String))
  | next (headers : List (String × String))
deriving Repr

/-- Body of the 403 forbidden-client response. -/
def forbiddenBody : Json :=
  .obj [("error", .str "此应用仅支持微信小程序访问，请在微信中打开")]

/-- Body of the 503 fail-closed response. -/
def unavailableBody : Json :=
  .obj [("error", .str "服务暂时不可用，请稍后重试")]

/-- Body of the 429 rate-limited response: `limitResult.error ||
'请求太频繁'` plus the reset instant and ceiling. -/
def rateLimitedBody (r : RateLimitResult) : Json :=
  .obj
    [ ("error", .str (match r.error with
        | some e => if e = "" then "请求太频繁" else e
        | none => "请求太频繁")),
      ("resetTime", .num r.resetTime),
      ("limit", .num r.limit) ]

/-- The three `X-RateLimit-*` headers the middleware sets from a completed
rate-limit check. -/
def rateLimitHeaders (r : RateLimitResult) : List (String × String) :=
  [ ("X-RateLimit-Limit", toString r.limit),
    ("X-RateLimit-Remaining", toString r.remaining),
    ("X-RateLimit-Reset", toString r.resetTime) ]

/-- The middleware: reject non-WeChat clients with 403; pass paths outside
`/api/blessing` straight through; otherwise act on the rate-limit outcome —
503 if the check threw (the fail-closed `catch`), 429 with headers if the
window is exhausted, forward with headers if admitted. -/
def middleware (req : MwRequest) (limitOutcome : Except Unit RateLimitResult) : MwResponse :=
  let userAgent := req.userAgent.getD ""
  if !isWeChatMiniProgram userAgent then .json 403 forbiddenBody []
  else if !jsStartsWith req.pathname "/api/blessing" then .next []
  else
    match limitOutcome with
    | .error _ => .json 503 unavailableBody []
    | .ok r =>
      if !r.success then .json 429 (rateLimitedBody r) (rateLimitHeaders r)
      else .next (rateLimitHeaders r)

/-- The headers carried by either kind of middleware response. -/
def respHeaders : MwResponse → List (String × String)
  | .json _ _ hs => hs
  | .next hs => hs

/-- The status of an error response; `none` for a forwarded request. -/
def respStatus : MwResponse → Option Nat
  | .json s _ _ => some s
  | .next _ => none

/-- Replaces the first occurrence of `pat` (non-empty) in a character list,
as JavaScript `String.prototype.replace` with a string pattern does. -/
def listReplaceFirst (pat rep : List Char) : List Char → List Char
  | [] => []
  | c :: rest =>
    if pat.isPrefixOf (c :: rest) then rep ++ (c :: rest).drop pat.length
    else c :: listReplaceFirst pat rep rest

/-- `header.replace('Bearer ', '')`. -/
def stripBearer (s : String) : String :=
  String.mk (listReplaceFirst "Bearer ".toList [] s.toList)

/-- JavaScript `a || b` over possibly-absent strings: `a` unless it is
`undefined` or the empty string. -/
def jsOrStr (a b : Option String) : Option String :=
  match a with
  | some s => if s = "" then b else some s
  | none => b

/-- The admission prefix of the `/api/blessing` route handler. -/
inductive PostGate where
  | forbiddenClient
  | notLoggedIn
  | invalidToken
  | proceed (p : TokenPayload)
deriving Repr

/-- The `/api/blessing` POST handler up to the point business logic runs:
reject non-WeChat clients (403), extract the token from the `auth_token`
cookie or the bearer header (cookie wins unless falsy), reject a missing
token (401 `用户未登录`), reject a token `verifyToken` refuses (401
`登录已过期`), and otherwise proceed with the decoded identity. -/
def postAdmission (hmac : HmacFun) (secret : String) (userAgent : Option String)
    (cookieToken : Option String) (authHeader : Option String) (now : Int) : PostGate :=
  let ua := userAgent.getD ""
  if !jsIncludes ua "MicroMessenger" then .forbiddenClient
  else
    match jsOrStr cookieToken (authHeader.map stripBearer) with
    | none => .notLoggedIn
    | some t =>
      if t = "" then .notLoggedIn
      else
        match verifyToken hmac secret t now with
        | none => .invalidToken
        | some p => .proceed p

/-! ### Facts about the codec layer -/

/-- Every 6-bit value encodes to an alphabet character. -/
theorem b64Char_mem (i : Nat) : b64Char i ∈ b64Alpha := by
  unfold b64Char
  cases h : b64Alpha[i]? with
  | none =>
    simp [List.getD, h]
    decide
  | some c =>
    have hm : c ∈ b64Alpha := List.getElem?_mem h
    simpa [List.getD, h] using hm

/-- Every character of a base64 encoding is an alphabet character or the
padding character. -/
theorem mem_b64encode : ∀ l : List Nat, ∀ c ∈ b64encode l, c ∈ b64Alpha ∨ c = '='
  | [] => by simp [b64encode]
  | [a] => by
    intro c hc
    simp only [b64encode, List.mem_cons, List.not_mem_nil, or_false] at hc
    rcases hc with h | h | h | h
    all_goals first
      | exact Or.inl (h ▸ b64Char_mem _)
      | exact Or.inr h
  | [a, b] => by
    intro c hc
    simp only [b64encode, List.mem_cons, List.not_mem_nil, or_false] at hc
    rcases hc with h | h | h | h
    all_goals first
      | exact Or.inl (h ▸ b64Char_mem _)
      | exact Or.inr h
  | a :: b :: c' :: rest => by
    intro c hc
    simp only [b64encode, List.mem_cons] at hc
    rcases hc with h | h | h | h | h
    · exact Or.inl (h ▸ b64Char_mem _)
    · exact Or.inl (h ▸ b64Char_mem _)
    · exact Or.inl (h ▸ b64Char_mem _)
    · exact Or.inl (h ▸ b64Char_mem _)
    · exact mem_b64encode rest c h

/-- A base64 encoding never contains the dot separator. -/
theorem dot_not_mem_b64encode (l : List Nat) : '.' ∉ b64encode l := by
  intro h
  rcases mem_b64encode l '.' h with hm | hm
  · revert hm
    decide
  · cases hm

/-- A byte list whose length is not a multiple of three encodes with at
least one `'='` of padding.  (A SHA-256 digest has 32 bytes, so its base64
form always carries padding.) -/
theorem eq_mem_b64encode_of_len : ∀ l : List Nat, l.length % 3 ≠ 0 → '=' ∈ b64encode l
  | [] => by intro h; simp at h
  | [a] => by intro _; simp [b64encode]
  | [a, b] => by intro _; simp [b64encode]
  | a :: b :: c' :: rest => by
    intro h
    have hr : rest.length % 3 ≠ 0 := by
      simp only [List.length_cons] at h
      omega
    have ih := eq_mem_b64encode_of_len rest hr
    simp only [b64encode, List.mem_cons]
    tauto

/-- The verifier's URL-safe stripping removes every `'='`. -/
theorem eq_not_mem_jsStripEq (l : List Char) : '=' ∉ jsStripEq l := by
  simp [jsStripEq, List.mem_filter]

/-- The recomputed `expectedSignature` of `verifyToken` never contains
`'='`. -/
theorem eq_not_mem_expectedSigOf (hmac : HmacFun) (secret : String) (h p : List Char) :
    '=' ∉ expectedSigOf hmac secret h p :=
  eq_not_mem_jsStripEq _

/-! ### Facts about dot splitting -/

/-- Splitting a dot-free piece yields just that piece. -/
theorem splitDot_no_dot (a : List Char) (ha : '.' ∉ a) : splitDot a = [a] := by
  induction a with
  | nil => rfl
  | cons c t ih =>
    have hc : c ≠ '.' := fun h => ha (h ▸ List.mem_cons_self c t)
    have ht : '.' ∉ t := fun h => ha (List.mem_cons_of_mem c h)
    simp [splitDot, hc, ih ht, consHead]

/-- Splitting past a leading dot-free piece peels it off whole. -/
theorem splitDot_append_dot (a r : List Char) (ha : '.' ∉ a) :
    splitDot (a ++ '.' :: r) = a :: splitDot r := by
  induction a with
  | nil => simp [splitDot]
  | cons c t ih =>
    have hc : c ≠ '.' := fun h => ha (h ▸ List.mem_cons_self c t)
    have ht : '.' ∉ t := fun h => ha (List.mem_cons_of_mem c h)
    simp [splitDot, hc, ih ht, consHead]

/-- A three-section token built from dot-free pieces splits back into
exactly those pieces. -/
theorem splitDot_three (h p s : List Char) (hH : '.' ∉ h) (hP : '.' ∉ p) (hS : '.' ∉ s) :
    splitDot (h ++ '.' :: p ++ '.' :: s) = [h, p, s] := by
  have hassoc : h ++ '.' :: p ++ '.' :: s = h ++ '.' :: (p ++ '.' :: s) := by
    simp
  rw [hassoc, splitDot_append_dot _ _ hH, splitDot_append_dot _ _ hP, splitDot_no_dot _ hS]

/-! ### Behaviour of the verifier on structured tokens -/

/-- On a three-section token whose signature section differs from the
recomputed one, `verifyToken` stops at the comparison and returns `null`. -/
theorem verifyToken_of_sig_mismatch (hmac : HmacFun) (secret : String)
    (h p s : List Char) (now : Int)
    (hH : '.' ∉ h) (hP : '.' ∉ p) (hS : '.' ∉ s)
    (hne : s ≠ expectedSigOf hmac secret h p) :
    verifyToken hmac secret (String.mk (h ++ '.' :: p ++ '.' :: s)) now = none := by
  unfold verifyToken verifyTokenBody
  have hsplit : splitDot (String.mk (h ++ '.' :: p ++ '.' :: s)).toList = [h, p, s] :=
    splitDot_three h p s hH hP hS
  rw [hsplit]
  simp [hne]

/-- C3 (amended): expiry rejection holds with a strict bound only.  For
every three-section token whose payload section decodes to a JSON value
carrying a numeric `exp` field, `verifyToken` returns failure (`null`)
whenever the current time is strictly greater than `exp` — whether or not
the signature matches.  (At `now = exp` exactly, a correctly signed token
is still accepted; see the counterexample.)  In particular a token with
`exp = issuedAt` is rejected at every instant strictly after `issuedAt`. -/
theorem verify_rejects_after_expiry (hmac : HmacFun) (secret : String)
    (h p s : List Char) (now : Int) (e : Int) (j : Json)
    (hH : '.' ∉ h) (hP : '.' ∉ p) (hS : '.' ∉ s)
    (hdec : decodedPayloadOf p = .ok j)
    (hexp : jsGetField j "exp" = some (.num e))
    (hlt : e < now) :
    verifyToken hmac secret (String.mk (h ++ '.' :: p ++ '.' :: s)) now = none := by
  unfold verifyToken verifyTokenBody
  have hsplit : splitDot (String.mk (h ++ '.' :: p ++ '.' :: s)).toList = [h, p, s] :=
    splitDot_three h p s hH hP hS
  rw [hsplit]
  by_cases hsig : s = expectedSigOf hmac secret h p
  · cases j with
    | obj ms => simp [hsig, hdec, jsLtNum, hexp, hlt]
    | null => simp [jsGetField] at hexp
    | bool b => simp [jsGetField] at hexp
    | num n => simp [jsGetField] at hexp
    | str t => simp [jsGetField] at hexp
    | arr xs => simp [jsGetField] at hexp
  · simp [hsig]

/-- C8: for every input string that does not split on `'.'` into exactly
three parts, `verifyToken` returns the failure value `null`.  The result is
`none` uniformly in the HMAC function and the secret — the signature is
never recomputed and the payload never decoded, since the quantified
`hmac` is arbitrary. -/
theorem verify_rejects_non_three_part (hmac : HmacFun) (secret token : String) (now : Int)
    (hn : (splitDot token.toList).length ≠ 3) :
    verifyToken hmac secret token now = none := by
  unfold verifyToken verifyTokenBody
  rcases hs : splitDot token.toList with _ | ⟨x, _ | ⟨y, _ | ⟨z, _ | ⟨w, r⟩⟩⟩⟩
  · rfl
  · rfl
  · rfl
  · exact absurd (by rw [hs]; rfl) hn
  · rfl

/-! ### Claims about the token service -/

/-- C1: the token-service round trip fails on the code.  For every HMAC
implementation with 32-byte digests (SHA-256 in particular), every secret,
every identity pair and every pair of instants, the shared `verifyToken`
rejects the token `generateToken` just minted: the minted signature is
plain padded base64 (a 32-byte digest always ends in `'='`), while the
verifier compares against a URL-safe, padding-stripped recomputation, so
the comparison never succeeds. -/
theorem mint_verify_roundtrip_fails (hmac : HmacFun)
    (hlen : ∀ k m, (hmac k m).length = 32)
    (secret userId openid : String) (tMint tVerify : Int) :
    verifyToken hmac secret (generateToken hmac secret userId openid tMint) tVerify = none := by
  have hH : '.' ∉ mintHeader := by
    unfold mintHeader
    exact dot_not_mem_b64encode _
  have hP : '.' ∉ mintPayload userId openid tMint := by
    unfold mintPayload
    exact dot_not_mem_b64encode _
  have hS : '.' ∉ mintSignature hmac secret userId openid tMint := by
    unfold mintSignature
    exact dot_not_mem_b64encode _
  have hne : mintSignature hmac secret userId openid tMint
      ≠ expectedSigOf hmac secret mintHeader (mintPayload userId openid tMint) := by
    intro he
    have h1 : '=' ∈ mintSignature hmac secret userId openid tMint := by
      unfold mintSignature
      exact eq_mem_b64encode_of_len _ (by rw [hlen]; decide)
    exact eq_not_mem_expectedSigOf hmac secret _ _ (he ▸ h1)
  exact verifyToken_of_sig_mismatch hmac secret mintHeader (mintPayload userId openid tMint)
    (mintSignature hmac secret userId openid tMint) tVerify hH hP hS hne

/-- Witness for C1 at a concrete identity, time and digest function. -/
theorem mint_verify_roundtrip_fails_witness :
    verifyToken hmacStub "sec" (generateToken hmacStub "sec" "u" "o" 0) 0 = none :=
  mint_verify_roundtrip_fails hmacStub (fun k m => by simp [hmacStub]) "sec" "u" "o" 0 0

/-- C2: with the signing-secret environment variable absent (or empty —
both are falsy under `||`), the token service does not fail; it silently
proceeds with the fixed built-in secret
`default-secret-change-in-production`, minting and verifying with it. -/
theorem jwt_secret_silent_fallback :
    jwtSecretOf none = "default-secret-change-in-production"
    ∧ jwtSecretOf (some "") = "default-secret-change-in-production"
    ∧ generateTokenEnv hmacStub none "u" "o" 0
        = generateToken hmacStub "default-secret-change-in-production" "u" "o" 0
    ∧ verifyTokenEnv hmacStub none "a.b.c" 0
        = verifyToken hmacStub "default-secret-change-in-production" "a.b.c" 0 :=
  ⟨rfl, rfl, rfl, rfl⟩

/-- The payload object of the boundary counterexample token: `exp = 5`. -/
def boundaryPayloadJson : Json :=
  .obj [("sub", .str "u"), ("openid", .str "o"), ("iat", .num 0), ("exp", .num 5)]

/-- Its base64-encoded payload section. -/
def boundaryPayload : List Char := b64encode (utf8Encode (jsonStringify boundaryPayloadJson))

/-- A well-formed token, correctly signed from the verifier's point of view
(its third section equals the verifier's own recomputation), whose
`expiresAt` is the instant 5. -/
def boundaryToken : String :=
  String.mk (mintHeader ++ '.' :: boundaryPayload
    ++ '.' :: expectedSigOf hmacStub "sec" mintHeader boundaryPayload)

/-- C3 counterexample: the expiry bound is not `now ≥ expiresAt`.  The
correctly signed `boundaryToken` expires at instant 5, yet `verifyToken`
called exactly at instant 5 (so `now ≥ expiresAt` holds) accepts it and
returns the identity fields — the code tests `decoded.exp < Date.now()`,
which lets the boundary instant through. -/
theorem verify_accepts_at_expiry_instant :
    decodedPayloadOf boundaryPayload = .ok boundaryPayloadJson
    ∧ jsGetField boundaryPayloadJson "exp" = some (.num 5)
    ∧ verifyToken hmacStub "sec" boundaryToken 5
        = some ⟨some (.str "u"), some (.str "o")⟩ :=
  ⟨rfl, rfl, rfl⟩

/-- Witness for the amended C3 theorem: the boundary token is rejected one
instant after its expiry. -/
theorem verify_rejects_after_expiry_witness :
    verifyToken hmacStub "sec" boundaryToken 6 = none :=
  verify_rejects_after_expiry hmacStub "sec" mintHeader boundaryPayload
    (expectedSigOf hmacStub "sec" mintHeader boundaryPayload) 6 5 boundaryPayloadJson
    (by decide) (by decide) (by decide) rfl rfl (by decide)

/-- C4: the minted wire format is not URL-safe.  The token does split into
exactly the three minted sections, but the signature section always
contains the padding character `'='` (a 32-byte digest base64-encodes to
`4·⌈32/3⌉` characters ending in `'='`), which the claim excludes. -/
theorem mint_token_sections_not_urlsafe (hmac : HmacFun)
    (hlen : ∀ k m, (hmac k m).length = 32)
    (secret userId openid : String) (now : Int) :
    splitDot (generateToken hmac secret userId openid now).toList
      = [mintHeader, mintPayload userId openid now, mintSignature hmac secret userId openid now]
    ∧ '=' ∈ mintSignature hmac secret userId openid now := by
  constructor
  · have hH : '.' ∉ mintHeader := by
      unfold mintHeader
      exact dot_not_mem_b64encode _
    have hP : '.' ∉ mintPayload userId openid now := by
      unfold mintPayload
      exact dot_not_mem_b64encode _
    have hS : '.' ∉ mintSignature hmac secret userId openid now := by
      unfold mintSignature
      exact dot_not_mem_b64encode _
    exact splitDot_three _ _ _ hH hP hS
  · unfold mintSignature
    exact eq_mem_b64encode_of_len _ (by rw [hlen]; decide)

/-- Witness for C4 at a concrete identity, time and digest function. -/
theorem mint_token_sections_not_urlsafe_witness :
    splitDot (generateToken hmacStub "sec" "u" "o" 0).toList
      = [mintHeader, mintPayload "u" "o" 0, mintSignature hmacStub "sec" "u" "o" 0]
    ∧ '=' ∈ mintSignature hmacStub "sec" "u" "o" 0 :=
  mint_token_sections_not_urlsafe hmacStub (fun k m => by simp [hmacStub]) "sec" "u" "o" 0

/-- Witness for C8: a dotless string is rejected. -/
theorem verify_rejects_non_three_part_witness :
    verifyToken hmacStub "sec" "abc" 0 = none :=
  verify_rejects_non_three_part hmacStub "sec" "abc" 0 (by decide)

/-- C10: `verifyToken` is total at its public interface.  Its definition is
a total Lean function (every loop is fuel-bounded), so it terminates on
every input string and instant; and every run either returns the `try`
body's value outright or hits an exception in the body (`JSON.parse`
failure, property access on `null`) that the `catch` turns into `null` —
no exception ever propagates to the caller. -/
theorem verify_total_no_throw (hmac : HmacFun) (secret token : String) (now : Int) :
    (∃ r, verifyTokenBody hmac secret token now = .ok r
      ∧ verifyToken hmac secret token now = r)
    ∨ (∃ e, verifyTokenBody hmac secret token now = .error e
      ∧ verifyToken hmac secret token now = none) := by
  cases hb : verifyTokenBody hmac secret token now with
  | ok r => exact Or.inl ⟨r, rfl, by simp [verifyToken, hb]⟩
  | error e => exact Or.inr ⟨e, rfl, by simp [verifyToken, hb]⟩

/-! ### Claims about the admission gateway -/

/-- C5: fail closed on store outage.  For every rate-limited request (a
`/api/blessing` path from the supported WeChat client) whose rate-limit
check throws, the middleware's `catch` answers 503 Service Unavailable and
never forwards the request downstream — the failure is never treated as an
admission. -/
theorem middleware_fails_closed_on_store_error (req : MwRequest)
    (hua : isWeChatMiniProgram (req.userAgent.getD "") = true)
    (hpath : jsStartsWith req.pathname "/api/blessing" = true) :
    middleware req (.error ()) = .json 503 unavailableBody []
    ∧ ∀ hs, middleware req (.error ()) ≠ .next hs := by
  have h1 : middleware req (.error ()) = .json 503 unavailableBody [] := by
    simp [middleware, hua, hpath]
  exact ⟨h1, fun hs hcontra => by rw [h1] at hcontra; cases hcontra⟩

/-- Witness for C5: a concrete WeChat request to `/api/blessing` whose
store round trip threw. -/
theorem middleware_fails_closed_on_store_error_witness :
    middleware ⟨some "MicroMessenger/8.0", "/api/blessing"⟩ (.error ()) = .json 503 unavailableBody []
    ∧ ∀ hs, middleware ⟨some "MicroMessenger/8.0", "/api/blessing"⟩ (.error ()) ≠ .next hs :=
  middleware_fails_closed_on_store_error ⟨some "MicroMessenger/8.0", "/api/blessing"⟩
    (by decide) (by decide)

/-- C7: the client-type check comes first and maps to 403.  In the
middleware, every `/api/*` request whose User-Agent does not contain
`MicroMessenger` is answered 403 with the forbidden-client body for every
possible rate-limit outcome (so the limiter's result is never consulted);
in the `/api/blessing` route handler, such a request is likewise rejected
as `forbiddenClient` before any token is extracted or verified, whatever
the cookie, bearer header, clock and HMAC function. -/
theorem client_type_check_precedes :
    (∀ (req : MwRequest) (outcome : Except Unit RateLimitResult),
        jsStartsWith req.pathname "/api/" = true →
        isWeChatMiniProgram (req.userAgent.getD "") = false →
        middleware req outcome = .json 403 forbiddenBody [])
    ∧ (∀ (hmac : HmacFun) (secret : String) (ua cookieToken authHeader : Option String)
        (now : Int),
        jsIncludes (ua.getD "") "MicroMessenger" = false →
        postAdmission hmac secret ua cookieToken authHeader now = .forbiddenClient) := by
  constructor
  · intro req outcome _ hua
    simp [middleware, hua]
  · intro hmac secret ua cookieToken authHeader now hua
    simp [postAdmission, hua]

/-- Witness for C7: a desktop-browser User-Agent is turned away by both
the middleware and the route handler, token or no token. -/
theorem client_type_check_precedes_witness :
    middleware ⟨some "Mozilla/5.0", "/api/blessing"⟩ (.ok ⟨true, none, 1000, 5, 4⟩)
      = .json 403 forbiddenBody []
    ∧ postAdmission hmacStub "sec" (some "Mozilla/5.0") (some "sometoken") none 0
      = .forbiddenClient :=
  ⟨client_type_check_precedes.1 ⟨some "Mozilla/5.0", "/api/blessing"⟩
      (.ok ⟨true, none, 1000, 5, 4⟩) (by decide) (by decide),
    client_type_check_precedes.2 hmacStub "sec" (some "Mozilla/5.0") (some "sometoken") none 0
      (by decide)⟩

/-- C9: rate-limit metadata on both outcomes.  For every rate-limited
request on which the rate-limit check completes with result `r`, the
middleware's response carries exactly the three `X-RateLimit-*` headers
(ceiling, remaining, reset), both when the request is forwarded and when
it is rejected; and a rejected request is answered 429 with the
rate-limited body. -/
theorem rate_limit_headers_both_outcomes (req : MwRequest) (r : RateLimitResult)
    (hua : isWeChatMiniProgram (req.userAgent.getD "") = true)
    (hpath : jsStartsWith req.pathname "/api/blessing" = true) :
    respHeaders (middleware req (.ok r)) = rateLimitHeaders r
    ∧ ("X-RateLimit-Limit", toString r.limit) ∈ respHeaders (middleware req (.ok r))
    ∧ ("X-RateLimit-Remaining", toString r.remaining) ∈ respHeaders (middleware req (.ok r))
    ∧ ("X-RateLimit-Reset", toString r.resetTime) ∈ respHeaders (middleware req (.ok r))
    ∧ (r.success = false →
        middleware req (.ok r) = .json 429 (rateLimitedBody r) (rateLimitHeaders r))
    ∧ (r.success = true → middleware req (.ok r) = .next (rateLimitHeaders r)) := by
  cases hr : r.success <;>
    simp [middleware, hua, hpath, hr, respHeaders, rateLimitHeaders]

/-- Witness for C9: a concrete exhausted window is answered 429 and still
carries the three headers. -/
theorem rate_limit_headers_both_outcomes_witness :
    respHeaders (middleware ⟨some "MicroMessenger/8.0", "/api/blessing"⟩
        (.ok ⟨false, none, 1000, 5, 0⟩))
      = rateLimitHeaders ⟨false, none, 1000, 5, 0⟩
    ∧ ("X-RateLimit-Limit", toString (⟨false, none, 1000, 5, 0⟩ : RateLimitResult).limit)
      ∈ respHeaders (middleware ⟨some "MicroMessenger/8.0", "/api/blessing"⟩
        (.ok ⟨false, none, 1000, 5, 0⟩))
    ∧ ("X-RateLimit-Remaining", toString (⟨false, none, 1000, 5, 0⟩ : RateLimitResult).remaining)
      ∈ respHeaders (middleware ⟨some "MicroMessenger/8.0", "/api/blessing"⟩
        (.ok ⟨false, none, 1000, 5, 0⟩))
    ∧ ("X-RateLimit-Reset", toString (⟨false, none, 1000, 5, 0⟩ : RateLimitResult).resetTime)
      ∈ respHeaders (middleware ⟨some "MicroMessenger/8.0", "/api/blessing"⟩
        (.ok ⟨false, none, 1000, 5, 0⟩))
    ∧ ((⟨false, none, 1000, 5, 0⟩ : RateLimitResult).success = false →
        middleware ⟨some "MicroMessenger/8.0", "/api/blessing"⟩ (.ok ⟨false, none, 1000, 5, 0⟩)
          = .json 429 (rateLimitedBody ⟨false, none, 1000, 5, 0⟩)
              (rateLimitHeaders ⟨false, none, 1000, 5, 0⟩))
    ∧ ((⟨false, none, 1000, 5, 0⟩ : RateLimitResult).success = true →
        middleware ⟨some "MicroMessenger/8.0", "/api/blessing"⟩ (.ok ⟨false, none, 1000, 5, 0⟩)
          = .next (rateLimitHeaders ⟨false, none, 1000, 5, 0⟩)) :=
  rate_limit_headers_both_outcomes ⟨some "MicroMessenger/8.0", "/api/blessing"⟩
    ⟨false, none, 1000, 5, 0⟩ (by decide) (by decide)
